import Mathlib

/-!
Verification of the USB-1901 record tool (`USB1901-record-tool.c`).

Shallow embedding conventions:
* C `double` arithmetic is modelled exactly over `ℚ` (all quantities the
  claims mention are exactly representable).
* `signed short` sample codes are modelled as `Int`.
* Output written with `fprintf`/`printf` is modelled as `String`s; the C
  library `%e` conversion is modelled by `fmtE` below.
* The vendor driver (UsbDask) is modelled as an oracle supplying the result
  codes of each driver call; the poll loop of `main` becomes a function from the
  oracle to the list of observable effects it performs.
-/

/-- The `AD_B_*` range-code constants come from the vendor header `UsbDask.h`,
which is not part of this repository; the code only ever compares them
symbolically, so they are modelled as distinct constructors.  `other n`
stands for any `U16` code different from the four named ones. -/
inductive ADRange where
  | AD_B_0_2_V : ADRange
  | AD_B_1_V : ADRange
  | AD_B_2_V : ADRange
  | AD_B_10_V : ADRange
  | other : Nat → ADRange
deriving DecidableEq, Repr

/-- `channel_t` from the source: `{ U16 id; U16 AdRange; }`. -/
structure channel_t where
  id : Nat
  AdRange : ADRange
deriving DecidableEq, Repr

/-- `#define MAX_CHANNELS 8`. -/
def MAX_CHANNELS : Nat := 8

/-- `ad_range_to_volt` (lines 266-281): full-scale voltage for a range code.
The first component is the returned `double` (as `ℚ`); the second is the
message written to `stderr`, if any.  The C function always returns (it never
aborts); totality of this definition models that. -/
def ad_range_to_volt : ADRange → ℚ × Option String
  | ADRange.AD_B_0_2_V => (0.2, none)
  | ADRange.AD_B_1_V => (1, none)
  | ADRange.AD_B_2_V => (2, none)
  | ADRange.AD_B_10_V => (10, none)
  | ADRange.other _ => (0, some "ad_range_to_volt: Unknown AD range.")

/-! ### A model of the C library `%e` conversion

Modelled from the spec: the C library `printf` `%e` conversion (the C
library is not part of this repository).  Format: optional minus sign, one
leading digit, a decimal point, exactly six fractional digits (the default
precision), the letter `e`, an explicit sign and an at-least-two-digit
exponent. -/

/-- Fuel-based floor base-10 logarithm (`fuel ≥ n` makes it exact). -/
def log10F : Nat → Nat → Nat
  | 0, _ => 0
  | fuel + 1, n => if n < 10 then 0 else log10F fuel (n / 10) + 1

/-- Floor base-10 logarithm of a natural number. -/
def natLog10 (n : Nat) : Nat := log10F n n

/-- Fuel-based ceiling base-10 logarithm (`fuel ≥ n` makes it exact). -/
def clog10F : Nat → Nat → Nat
  | 0, _ => 0
  | fuel + 1, n => if n ≤ 1 then 0 else clog10F fuel ((n + 9) / 10) + 1

/-- Ceiling base-10 logarithm of a natural number. -/
def natClog10 (n : Nat) : Nat := clog10F n n

/-- Decimal exponent of a positive rational: the `e` with `10^e ≤ q < 10^(e+1)`. -/
def decExp (q : ℚ) : ℤ :=
  if 1 ≤ q then (natLog10 ⌊q⌋.toNat : ℤ)
  else -(natClog10 ⌈q⁻¹⌉.toNat : ℤ)

/-- Round a nonnegative rational to the nearest natural (half away from zero). -/
def roundN (r : ℚ) : Nat := (⌊r + 1/2⌋).toNat

/-- The six fractional digits of `%e` output, zero padded. -/
def sixFrac (f : Nat) : String :=
  String.mk [Nat.digitChar (f / 100000 % 10), Nat.digitChar (f / 10000 % 10),
    Nat.digitChar (f / 1000 % 10), Nat.digitChar (f / 100 % 10),
    Nat.digitChar (f / 10 % 10), Nat.digitChar (f % 10)]

/-- The exponent part of `%e` output: sign plus at least two digits. -/
def expStr (e : ℤ) : String :=
  (if e < 0 then "-" else "+") ++
    (if e.natAbs < 10 then "0" ++ toString e.natAbs else toString e.natAbs)

/-- Assembles a `%e` string from sign, 7-digit mantissa and exponent. -/
def fmtECore (sign : String) (d : Nat) (e2 : ℤ) : String :=
  sign ++ String.singleton (Nat.digitChar (d / 1000000 % 10)) ++
    "." ++ sixFrac (d % 1000000) ++ "e" ++ expStr e2

/-- `%e` with default precision, on the exact rational value. -/
def fmtE (q : ℚ) : String :=
  if q = 0 then "0.000000e+00"
  else
    let a := |q|
    let e := decExp a
    let d0 := roundN (a * 10 ^ (6 - e))
    fmtECore (if q < 0 then "-" else "")
      (if 10000000 ≤ d0 then d0 / 10 else d0)
      (if 10000000 ≤ d0 then e + 1 else e)

/-! ### `process_samples` (lines 235-264)

`int process_samples(signed short* buffer, int length, int offset)` reads the
globals `no_channels` (here `channels.length`) and `channel[]` (here the list
`channels`), writes one `%e` field plus separator per sample to `file`,
accumulates per-channel sums in the local array `sum[]`, prints one average
line per configured channel to stdout, and returns the new rotation offset.
The buffer pointer plus `length` pair is modelled as a `List Int` of exactly
`length` valid samples; `offset` is a `Nat` (the C `%` on nonnegative `int`s
agrees with `Nat` `%`). -/

/-- Record of the observable results of one `process_samples` call. -/
structure PSResult where
  fileOut : String
  console : List String
  ret : Nat
deriving DecidableEq, Repr

/-- `toVolts[i] = ad_range_to_volt(channel[i].AdRange)/(double)(1<<15)`
(lines 242-245). -/
def toVoltsList (channels : List channel_t) : List ℚ :=
  channels.map (fun ch => (ad_range_to_volt ch.AdRange).1 / 2 ^ 15)

/-- `int c = (i + offset) % no_channels` (line 247), with `pos = i + offset`. -/
def sampleChannel (C off i : Nat) : Nat := (i + off) % C

/-- `double volts = (double)buffer[i] * toVolts[c]` (line 248). -/
def sampleVolts (scale : List ℚ) (b : Int) (c : Nat) : ℚ := (b : ℚ) * scale.getD c 0

/-- The separator written after the field of channel `c`
(lines 253-257): `",\t"` when `(c + 1) % no_channels` is nonzero,
otherwise `"\n"`. -/
def sepFor (C c : Nat) : String := if (c + 1) % C ≠ 0 then ",\t" else "\n"

/-- The sample loop of `process_samples` (lines 246-258): one pass over the
buffer threading the `sum[]` array (as a function `Nat → ℚ`) and the text
appended to `file`.  `pos` is `i + offset`. -/
def psLoop (scale : List ℚ) (C : Nat) :
    List Int → Nat → (Nat → ℚ) → String → ((Nat → ℚ) × String)
  | [], _, sums, out => (sums, out)
  | b :: rest, pos, sums, out =>
    let c := pos % C
    let volts := sampleVolts scale b c
    psLoop scale C rest (pos + 1)
      (fun j => if j = c then sums j + volts else sums j)
      (out ++ fmtE volts ++ sepFor C c)

/-- `process_samples` itself.  `samplesPerChannel = (double)(length/no_channels)`
is the C integer division cast to `double` (line 239); the returned offset is
`(length + offset) % no_channels` (line 263); the console lines are
`"  Channel %d average %e V.\n"` for `i = 0 .. no_channels-1` (line 261). -/
def process_samples (channels : List channel_t) (buffer : List Int) (offset : Nat) :
    PSResult :=
  let C := channels.length
  let scale := toVoltsList channels
  let samplesPerChannel : ℚ := ((buffer.length / C : Nat) : ℚ)
  let r := psLoop scale C buffer offset (fun _ => 0) ""
  { fileOut := r.2
    console := (List.range C).map (fun i =>
      "  Channel " ++ toString (channels.getD i ⟨0, ADRange.other 0⟩).id ++
        " average " ++ fmtE (r.1 i / samplesPerChannel) ++ " V.\n")
    ret := (buffer.length + offset) % C }

/-! ### Closed forms for the sample loop -/

/-- The text the sample loop appends to `file`, as a plain recursion without
accumulator: one `%e` field plus separator per sample, `pos = i + offset`. -/
def emitFrom (scale : List ℚ) (C : Nat) : List Int → Nat → String
  | [], _ => ""
  | b :: rest, pos =>
    fmtE (sampleVolts scale b (pos % C)) ++ sepFor C (pos % C) ++
      emitFrom scale C rest (pos + 1)

/-- The contribution of a buffer (starting at position `pos`) to `sum[j]`. -/
def chanSumFrom (scale : List ℚ) (C : Nat) : List Int → Nat → Nat → ℚ
  | [], _, _ => 0
  | b :: rest, pos, j =>
    (if pos % C = j then sampleVolts scale b (pos % C) else 0) +
      chanSumFrom scale C rest (pos + 1) j

theorem psLoop_out (scale : List ℚ) (C : Nat) (bs : List Int) :
    ∀ pos sums out, (psLoop scale C bs pos sums out).2 = out ++ emitFrom scale C bs pos := by
  induction bs with
  | nil => intro pos sums out; simp [psLoop, emitFrom]
  | cons b rest ih =>
    intro pos sums out
    simp only [psLoop, emitFrom, ih, String.append_assoc]

theorem psLoop_sums (scale : List ℚ) (C : Nat) (bs : List Int) :
    ∀ pos sums out j,
      (psLoop scale C bs pos sums out).1 j = sums j + chanSumFrom scale C bs pos j := by
  induction bs with
  | nil => intro pos sums out j; simp [psLoop, chanSumFrom]
  | cons b rest ih =>
    intro pos sums out j
    simp only [psLoop, chanSumFrom, ih]
    by_cases h : pos % C = j
    · subst h; simp [add_assoc]
    · have h2 : ¬(j = pos % C) := fun hh => h hh.symm
      simp [h, h2]

theorem emitFrom_append (scale : List ℚ) (C : Nat) (b1 b2 : List Int) :
    ∀ pos, emitFrom scale C (b1 ++ b2) pos
      = emitFrom scale C b1 pos ++ emitFrom scale C b2 (pos + b1.length) := by
  induction b1 with
  | nil => intro pos; simp [emitFrom]
  | cons b rest ih =>
    intro pos
    have e1 : (b :: rest) ++ b2 = b :: (rest ++ b2) := rfl
    rw [e1]
    simp only [emitFrom]
    rw [ih (pos + 1), List.length_cons]
    have h2 : pos + (rest.length + 1) = pos + 1 + rest.length := by omega
    rw [h2]
    simp [String.append_assoc]

theorem emitFrom_mod (scale : List ℚ) (C : Nat) (bs : List Int) :
    ∀ p q, p % C = q % C → emitFrom scale C bs p = emitFrom scale C bs q := by
  induction bs with
  | nil => intro p q _; rfl
  | cons b rest ih =>
    intro p q h
    simp only [emitFrom, h]
    have h1 : (p + 1) % C = (q + 1) % C := by
      rw [Nat.add_mod p 1, h, ← Nat.add_mod]
    rw [ih _ _ h1]

theorem stringJoin_cons (s : String) (l : List String) :
    String.join (s :: l) = s ++ String.join l := by
  apply String.ext
  simp [String.join_eq, String.data_append]

theorem emitFrom_eq_join (scale : List ℚ) (C : Nat) (bs : List Int) :
    ∀ pos, emitFrom scale C bs pos
      = String.join ((List.range bs.length).map (fun i =>
          fmtE (sampleVolts scale (bs.getD i 0) ((pos + i) % C)) ++
            sepFor C ((pos + i) % C))) := by
  induction bs with
  | nil => intro pos; rfl
  | cons b rest ih =>
    intro pos
    have h3 : (List.range rest.length).map (fun i =>
          fmtE (sampleVolts scale (rest.getD i 0) ((pos + 1 + i) % C)) ++
            sepFor C ((pos + 1 + i) % C))
        = (List.range rest.length).map ((fun i =>
          fmtE (sampleVolts scale ((b :: rest).getD i 0) ((pos + i) % C)) ++
            sepFor C ((pos + i) % C)) ∘ Nat.succ) := by
      apply List.map_congr_left
      intro i _
      simp only [Function.comp, Nat.succ_eq_add_one, List.getD_cons_succ]
      have h2 : pos + 1 + i = pos + (i + 1) := by omega
      rw [h2]
    rw [emitFrom, ih (pos + 1), List.length_cons, List.range_succ_eq_map, List.map_cons,
      stringJoin_cons, List.map_map]
    simp only [List.getD_cons_zero, Nat.add_zero]
    rw [h3]

/-- For a channel index in range, the separator test `(c + 1) % no_channels`
singles out exactly the last channel of the round-robin cycle. -/
theorem sepFor_eq_last (C c : Nat) (hc : c < C) :
    sepFor C c = if c = C - 1 then "\n" else ",\t" := by
  unfold sepFor
  by_cases h : c = C - 1
  · have h1 : c + 1 = C := by omega
    rw [h1, Nat.mod_self]
    simp [h]
  · have h1 : c + 1 < C := by omega
    rw [Nat.mod_eq_of_lt h1]
    simp [h]

/-- The text `process_samples` appends to the data file, in closed form. -/
theorem process_samples_fileOut (channels : List channel_t) (buffer : List Int)
    (offset : Nat) :
    (process_samples channels buffer offset).fileOut
      = emitFrom (toVoltsList channels) channels.length buffer offset := by
  show (psLoop _ _ buffer offset (fun _ => 0) "").2 = _
  rw [psLoop_out]
  exact String.empty_append _

/-- The rotation offset `process_samples` returns, in closed form. -/
theorem process_samples_ret (channels : List channel_t) (buffer : List Int)
    (offset : Nat) :
    (process_samples channels buffer offset).ret
      = (buffer.length + offset) % channels.length := rfl

/-- The console report lines of `process_samples`, in closed form: the average
uses the per-call channel sum of this one buffer. -/
theorem process_samples_console (channels : List channel_t) (buffer : List Int)
    (offset : Nat) :
    (process_samples channels buffer offset).console
      = (List.range channels.length).map (fun i =>
          "  Channel " ++ toString ((channels.getD i ⟨0, ADRange.other 0⟩).id) ++
            " average " ++
            fmtE (chanSumFrom (toVoltsList channels) channels.length buffer offset i /
              ((buffer.length / channels.length : Nat) : ℚ)) ++ " V.\n") := by
  show (List.range channels.length).map _ = _
  apply List.map_congr_left
  intro i _
  rw [psLoop_sums]
  simp

/-! ### Claim theorems: the Sample Processor -/

/-- C1: for every call to the Sample Processor with channel count `C > 0`,
buffer length `L ≥ 0`, and initial rotation offset `O` with `0 ≤ O < C`, the
returned rotation offset equals `(L + O) mod C`. -/
theorem process_samples_new_offset (channels : List channel_t) (buffer : List Int)
    (offset : Nat) (hC : 0 < channels.length) (hO : offset < channels.length) :
    (process_samples channels buffer offset).ret
      = (buffer.length + offset) % channels.length := rfl

theorem process_samples_new_offset_witness :
    (0 < ([⟨0, ADRange.AD_B_1_V⟩, ⟨1, ADRange.AD_B_10_V⟩] : List channel_t).length ∧
      1 < ([⟨0, ADRange.AD_B_1_V⟩, ⟨1, ADRange.AD_B_10_V⟩] : List channel_t).length) ∧
    (process_samples [⟨0, ADRange.AD_B_1_V⟩, ⟨1, ADRange.AD_B_10_V⟩] [5, -3, 7] 1).ret
      = (([5, -3, 7] : List Int).length + 1) % 2 :=
  ⟨⟨by decide, by decide⟩,
    process_samples_new_offset [⟨0, ADRange.AD_B_1_V⟩, ⟨1, ADRange.AD_B_10_V⟩]
      [5, -3, 7] 1 (by decide) (by decide)⟩

/-- C2: processing buffer `b1` with offset `O` and then `b2` with the returned
offset produces byte-identical file output (in particular identical field
separators and newlines, i.e. row boundaries) as processing the concatenated
buffer `b1 ++ b2` with offset `O`. -/
theorem row_boundaries_buffer_independent (channels : List channel_t)
    (b1 b2 : List Int) (offset : Nat)
    (hC : 0 < channels.length) (hO : offset < channels.length) :
    (process_samples channels (b1 ++ b2) offset).fileOut
      = (process_samples channels b1 offset).fileOut ++
          (process_samples channels b2
            ((process_samples channels b1 offset).ret)).fileOut := by
  rw [process_samples_fileOut, process_samples_fileOut, process_samples_fileOut,
    process_samples_ret, emitFrom_append]
  congr 1
  apply emitFrom_mod
  rw [Nat.mod_mod, Nat.add_comm offset b1.length]

theorem row_boundaries_buffer_independent_witness :
    (0 < ([⟨0, ADRange.AD_B_1_V⟩, ⟨1, ADRange.AD_B_10_V⟩] : List channel_t).length ∧
      0 < ([⟨0, ADRange.AD_B_1_V⟩, ⟨1, ADRange.AD_B_10_V⟩] : List channel_t).length) ∧
    (process_samples [⟨0, ADRange.AD_B_1_V⟩, ⟨1, ADRange.AD_B_10_V⟩]
        ([16384] ++ [16384, 0]) 0).fileOut
      = (process_samples [⟨0, ADRange.AD_B_1_V⟩, ⟨1, ADRange.AD_B_10_V⟩]
          [16384] 0).fileOut ++
        (process_samples [⟨0, ADRange.AD_B_1_V⟩, ⟨1, ADRange.AD_B_10_V⟩]
          [16384, 0]
          ((process_samples [⟨0, ADRange.AD_B_1_V⟩, ⟨1, ADRange.AD_B_10_V⟩]
            [16384] 0).ret)).fileOut :=
  ⟨⟨by decide, by decide⟩,
    row_boundaries_buffer_independent [⟨0, ADRange.AD_B_1_V⟩, ⟨1, ADRange.AD_B_10_V⟩]
      [16384] [16384, 0] 0 (by decide) (by decide)⟩

/-- C3: the sample at index `i` of a buffer processed with offset `O` is
assigned channel `(i + O) mod C`, and its converted value is
`raw_code * full_scale_voltage(range of that channel) / 2^15`; a raw code of
`+32767` on the 10V range converts to `10.00 * 32767/32768` volts, and a raw
code of `0` converts to `0.0` V on every range. -/
theorem sample_channel_and_conversion (channels : List channel_t) (buffer : List Int)
    (offset i : Nat) (hC : 0 < channels.length) (hi : i < buffer.length) :
    sampleChannel channels.length offset i = (i + offset) % channels.length ∧
    sampleVolts (toVoltsList channels) (buffer.getD i 0)
        (sampleChannel channels.length offset i)
      = (buffer.getD i 0 : ℚ) *
          ((ad_range_to_volt (channels.getD (sampleChannel channels.length offset i)
              ⟨0, ADRange.other 0⟩).AdRange).1 / 2 ^ 15) ∧
    (32767 : ℚ) * ((ad_range_to_volt ADRange.AD_B_10_V).1 / 2 ^ 15)
      = 10 * (32767 / 32768) ∧
    ∀ r : ADRange, (0 : ℚ) * ((ad_range_to_volt r).1 / 2 ^ 15) = 0 := by
  refine ⟨rfl, ?_, by norm_num [ad_range_to_volt], fun r => by simp⟩
  have hc : sampleChannel channels.length offset i < channels.length :=
    Nat.mod_lt _ hC
  unfold sampleVolts toVoltsList
  have hlen : sampleChannel channels.length offset i
      < (channels.map fun ch => (ad_range_to_volt ch.AdRange).1 / 2 ^ 15).length := by
    simpa using hc
  rw [List.getD_eq_getElem _ _ hlen, List.getElem_map, List.getD_eq_getElem _ _ hc]

theorem sample_channel_and_conversion_witness :
    (0 < ([⟨3, ADRange.AD_B_10_V⟩] : List channel_t).length ∧
      0 < ([(32767 : Int)] : List Int).length) ∧
    (sampleChannel 1 0 0 = (0 + 0) % 1 ∧
      sampleVolts (toVoltsList [⟨3, ADRange.AD_B_10_V⟩]) (([(32767 : Int)]).getD 0 0)
          (sampleChannel 1 0 0)
        = ((([(32767 : Int)]).getD 0 0 : ℚ)) *
            ((ad_range_to_volt (([⟨3, ADRange.AD_B_10_V⟩] : List channel_t).getD
                (sampleChannel 1 0 0) ⟨0, ADRange.other 0⟩).AdRange).1 / 2 ^ 15) ∧
      (32767 : ℚ) * ((ad_range_to_volt ADRange.AD_B_10_V).1 / 2 ^ 15)
        = 10 * (32767 / 32768) ∧
      ∀ r : ADRange, (0 : ℚ) * ((ad_range_to_volt r).1 / 2 ^ 15) = 0) :=
  ⟨⟨by decide, by decide⟩,
    sample_channel_and_conversion [⟨3, ADRange.AD_B_10_V⟩] [(32767 : Int)] 0 0
      (by decide) (by decide)⟩

/-! ### Shape of `%e` output -/

/-- A digit character produced from a value reduced mod 10 is a decimal digit. -/
theorem digitChar_mod_isDigit (m : Nat) : (Nat.digitChar (m % 10)).isDigit = true := by
  have h : m % 10 < 10 := Nat.mod_lt _ (by norm_num)
  generalize hk : m % 10 = k at h
  interval_cases k <;> decide

/-- Every string assembled by `fmtECore` has a decimal point followed by
exactly six digits and then the exponent marker. -/
theorem fmtECore_shape (sign : String) (d : Nat) (e2 : ℤ) :
    ∃ pre frac post, fmtECore sign d e2 = pre ++ "." ++ frac ++ "e" ++ post ∧
      frac.length = 6 ∧ frac.data.all Char.isDigit = true := by
  refine ⟨sign ++ String.singleton (Nat.digitChar (d / 1000000 % 10)),
    sixFrac (d % 1000000), expStr e2, rfl, ?_, ?_⟩
  · rfl
  · simp [sixFrac, List.all, digitChar_mod_isDigit]

/-- Every `fmtE` output has a decimal point followed by exactly six digits and
then the exponent marker. -/
theorem fmtE_shape (q : ℚ) :
    ∃ pre frac post, fmtE q = pre ++ "." ++ frac ++ "e" ++ post ∧
      frac.length = 6 ∧ frac.data.all Char.isDigit = true := by
  by_cases h : q = 0
  · subst h
    exact ⟨"0", "000000", "+00", rfl, rfl, rfl⟩
  · rw [fmtE, if_neg h]
    exact fmtECore_shape _ _ _

/-- C4: the Voltage Converter maps the four supported range codes to exactly
0.2 V, 1.0 V, 2.0 V and 10.0 V; every other input yields an error-stream
message and the value 0.0 V, without aborting (the function is total and
returns). -/
theorem ad_range_to_volt_contract :
    ad_range_to_volt ADRange.AD_B_0_2_V = (0.2, none) ∧
    ad_range_to_volt ADRange.AD_B_1_V = (1, none) ∧
    ad_range_to_volt ADRange.AD_B_2_V = (2, none) ∧
    ad_range_to_volt ADRange.AD_B_10_V = (10, none) ∧
    ∀ n : Nat, ad_range_to_volt (ADRange.other n)
      = (0, some "ad_range_to_volt: Unknown AD range.") :=
  ⟨rfl, rfl, rfl, rfl, fun _ => rfl⟩

/-- C5: the file output of `process_samples` is, sample by sample, a `%e`
field followed by a comma and a tab for every channel other than the last of
the round-robin cycle, and by a newline after the last channel; and every
`%e` field has exactly six digits after the decimal point. -/
theorem field_format_and_separators (channels : List channel_t) (buffer : List Int)
    (offset : Nat) (hC : 0 < channels.length) :
    (process_samples channels buffer offset).fileOut
      = String.join ((List.range buffer.length).map (fun i =>
          fmtE (sampleVolts (toVoltsList channels) (buffer.getD i 0)
            (sampleChannel channels.length offset i)) ++
          (if sampleChannel channels.length offset i = channels.length - 1
            then "\n" else ",\t"))) ∧
    ∀ q : ℚ, ∃ pre frac post, fmtE q = pre ++ "." ++ frac ++ "e" ++ post ∧
      frac.length = 6 ∧ frac.data.all Char.isDigit = true := by
  refine ⟨?_, fmtE_shape⟩
  rw [process_samples_fileOut, emitFrom_eq_join]
  congr 1
  apply List.map_congr_left
  intro i _
  have hcomm : offset + i = i + offset := Nat.add_comm _ _
  rw [hcomm]
  have hc : (i + offset) % channels.length < channels.length := Nat.mod_lt _ hC
  rw [sepFor_eq_last _ _ hc]
  rfl

theorem field_format_and_separators_witness :
    0 < ([⟨0, ADRange.AD_B_1_V⟩, ⟨1, ADRange.AD_B_10_V⟩] : List channel_t).length ∧
    ((process_samples [⟨0, ADRange.AD_B_1_V⟩, ⟨1, ADRange.AD_B_10_V⟩]
        [16384, 16384, 0, 0] 0).fileOut
      = String.join ((List.range ([16384, 16384, 0, 0] : List Int).length).map (fun i =>
          fmtE (sampleVolts (toVoltsList [⟨0, ADRange.AD_B_1_V⟩, ⟨1, ADRange.AD_B_10_V⟩])
            (([16384, 16384, 0, 0] : List Int).getD i 0)
            (sampleChannel 2 0 i)) ++
          (if sampleChannel 2 0 i = 2 - 1 then "\n" else ",\t"))) ∧
      ∀ q : ℚ, ∃ pre frac post, fmtE q = pre ++ "." ++ frac ++ "e" ++ post ∧
        frac.length = 6 ∧ frac.data.all Char.isDigit = true) :=
  ⟨by decide,
    field_format_and_separators [⟨0, ADRange.AD_B_1_V⟩, ⟨1, ADRange.AD_B_10_V⟩]
      [16384, 16384, 0, 0] 0 (by decide)⟩

/-- C6: after each buffer, `process_samples` prints one console line per
configured channel, in order, containing
`Channel <id> average <value> V` where `<value>` is the per-call sum of that
channel converted voltages over this one buffer only (the `sum[]` array is
a local of the call, reset to zero on entry), divided by the integer quotient
`length / no_channels`. -/
theorem console_average_per_buffer (channels : List channel_t) (buffer : List Int)
    (offset : Nat) (hC : 0 < channels.length) :
    (process_samples channels buffer offset).console.length = channels.length ∧
    (process_samples channels buffer offset).console
      = (List.range channels.length).map (fun i =>
          "  Channel " ++ toString ((channels.getD i ⟨0, ADRange.other 0⟩).id) ++
            " average " ++
            fmtE (chanSumFrom (toVoltsList channels) channels.length buffer offset i /
              ((buffer.length / channels.length : Nat) : ℚ)) ++ " V.\n") := by
  refine ⟨?_, process_samples_console channels buffer offset⟩
  rw [process_samples_console]
  simp

theorem console_average_per_buffer_witness :
    0 < ([⟨0, ADRange.AD_B_1_V⟩, ⟨1, ADRange.AD_B_10_V⟩] : List channel_t).length ∧
    ((process_samples [⟨0, ADRange.AD_B_1_V⟩, ⟨1, ADRange.AD_B_10_V⟩]
        [16384, 16384, 0, 0] 0).console.length = 2 ∧
      (process_samples [⟨0, ADRange.AD_B_1_V⟩, ⟨1, ADRange.AD_B_10_V⟩]
        [16384, 16384, 0, 0] 0).console
        = (List.range 2).map (fun i =>
            "  Channel " ++
              toString ((([⟨0, ADRange.AD_B_1_V⟩, ⟨1, ADRange.AD_B_10_V⟩] :
                List channel_t).getD i ⟨0, ADRange.other 0⟩).id) ++
              " average " ++
              fmtE (chanSumFrom
                  (toVoltsList [⟨0, ADRange.AD_B_1_V⟩, ⟨1, ADRange.AD_B_10_V⟩]) 2
                  [16384, 16384, 0, 0] 0 i /
                ((([16384, 16384, 0, 0] : List Int).length / 2 : Nat) : ℚ)) ++
              " V.\n")) :=
  ⟨by decide,
    console_average_per_buffer [⟨0, ADRange.AD_B_1_V⟩, ⟨1, ADRange.AD_B_10_V⟩]
      [16384, 16384, 0, 0] 0 (by decide)⟩

/-- C10: with `1 ≤ C ≤ 8` channels and any nonnegative offset, the computed
channel index `(i + O) mod C` is below `C`, hence below the capacity 8 of the
`toVolts[]` and `sum[]` arrays, and the modulus divisor is nonzero, so the
out-of-bounds / division-by-zero situation is unreachable. -/
theorem channel_index_in_bounds (channels : List channel_t) (off i : Nat)
    (h1 : 1 ≤ channels.length) (h8 : channels.length ≤ MAX_CHANNELS) :
    channels.length ≠ 0 ∧
    sampleChannel channels.length off i < channels.length ∧
    sampleChannel channels.length off i < (toVoltsList channels).length ∧
    sampleChannel channels.length off i < MAX_CHANNELS := by
  have hm : sampleChannel channels.length off i < channels.length :=
    Nat.mod_lt _ h1
  refine ⟨by omega, hm, by simpa [toVoltsList] using hm, by omega⟩

theorem channel_index_in_bounds_witness :
    (1 ≤ ([⟨0, ADRange.AD_B_1_V⟩] : List channel_t).length ∧
      ([⟨0, ADRange.AD_B_1_V⟩] : List channel_t).length ≤ MAX_CHANNELS) ∧
    ((1 : Nat) ≠ 0 ∧
      sampleChannel 1 5 7 < 1 ∧
      sampleChannel 1 5 7 < (toVoltsList [⟨0, ADRange.AD_B_1_V⟩]).length ∧
      sampleChannel 1 5 7 < MAX_CHANNELS) :=
  ⟨⟨by decide, by decide⟩,
    channel_index_in_bounds [⟨0, ADRange.AD_B_1_V⟩] 5 7 (by decide) (by decide)⟩

/-! ### `process_arguments` (lines 166-233)

The parser walks `argv[1..]`, mutating the global configuration; any bad
argument prints to `stderr` and calls `exit`.  Modelled as a recursion over
the argument list returning either the final configuration or the exit code
and `stderr` message (for `-h`, the code 0 and the usage text).  `sscanf`
with `"%d"` / `"%d:%d"` is modelled by `parseIntFrom` below: `%d` skips
whitespace, accepts an optional sign and at least one digit, and trailing
unmatched text is no failure (`sscanf` only counts conversions). -/

/-- Configuration produced by argument parsing (the globals `file_name`,
`sample_rate`, `duration`, `channel[]`/`no_channels`). -/
structure argsConfig where
  file_name : String
  sample_rate : Int
  duration : Int
  channels : List channel_t
deriving DecidableEq, Repr

/-- Initial values of the globals (lines 42-49). -/
def defaultConfig : argsConfig :=
  { file_name := "data.csv", sample_rate := 200, duration := -1, channels := [] }

/-- Skip C whitespace (space, tab, newline, vertical tab, form feed,
carriage return — the full `isspace` set), as `%d` does. -/
def skipWS : List Char → List Char
  | [] => []
  | c :: r =>
    if c = ' ' ∨ c = '\t' ∨ c = '\n' ∨ c = '\x0b' ∨ c = '\x0c' ∨ c = '\r' then
      skipWS r
    else c :: r

/-- Consume leading digits, accumulating their value. -/
def digitsVal : List Char → Nat → Nat × List Char
  | [], acc => (acc, [])
  | c :: r, acc =>
    if c.isDigit then digitsVal r (acc * 10 + (c.toNat - 48)) else (acc, c :: r)

/-- One `%d` conversion: skip whitespace, optional sign, at least one digit.
Returns the value and the unconsumed rest, or `none` when the conversion
fails (matching `sscanf` returning fewer items). -/
def parseIntFrom (s : List Char) : Option (Int × List Char) :=
  match skipWS s with
  | [] => none
  | '-' :: r =>
    match r with
    | c :: _ =>
      if c.isDigit then
        let v := digitsVal r 0
        some (-(v.1 : Int), v.2)
      else none
    | [] => none
  | '+' :: r =>
    match r with
    | c :: _ =>
      if c.isDigit then
        let v := digitsVal r 0
        some ((v.1 : Int), v.2)
      else none
    | [] => none
  | c :: r =>
    if c.isDigit then
      let v := digitsVal (c :: r) 0
      some ((v.1 : Int), v.2)
    else none

/-- `sscanf(arg, "%d", &v) == 1`, with the parsed value. -/
def scanOneInt (s : String) : Option Int := (parseIntFrom s.data).map (·.1)

/-- `sscanf(arg, "%d:%d", &id, &range) == 2`, with the parsed pair. -/
def scanIdRange (s : String) : Option (Int × Int) :=
  match parseIntFrom s.data with
  | none => none
  | some (a, rest) =>
    match rest with
    | ':' :: r2 =>
      match parseIntFrom r2 with
      | none => none
      | some (b, _) => some (a, b)
    | _ => none

/-- The `switch (range)` of lines 200-213.  Only reached after the range has
been validated to lie in `[0,3]`; the final case is dead code there. -/
def rangeCodeToAd (r : Int) : ADRange :=
  if r = 0 then ADRange.AD_B_0_2_V
  else if r = 1 then ADRange.AD_B_1_V
  else if r = 2 then ADRange.AD_B_2_V
  else if r = 3 then ADRange.AD_B_10_V
  else ADRange.other 0

/-- `process_arguments` (lines 166-233) over `argv[1..]`.  `Except.error`
carries the `exit` status and the message (for `-h` the usage text, printed
to stdout; for everything else an error printed to stderr).  The C messages
are prefixed with `argv[0]` and quote the offending token; the model keeps
the stable part of each message. -/
def process_arguments : List String → argsConfig → Except (Int × String) argsConfig
  | [], cfg => Except.ok cfg
  | a :: rest, cfg =>
    if a = "-h" then Except.error (0, "usage")
    else if a = "-o" then
      match rest with
      | [] => Except.error (-1, "No file name given to -o.")
      | v :: r2 => process_arguments r2 { cfg with file_name := v }
    else if a = "-s" then
      match rest with
      | [] => Except.error (-1, "Bad sample frequency given to -s.")
      | v :: r2 =>
        match scanOneInt v with
        | some s =>
          if s < 1 then Except.error (-1, "Bad sample frequency given to -s.")
          else process_arguments r2 { cfg with sample_rate := s }
        | none => Except.error (-1, "Bad sample frequency given to -s.")
    else if a = "-c" then
      if cfg.channels.length < MAX_CHANNELS then
        match rest with
        | [] => Except.error (-1, "Bad parameter given to -c.")
        | v :: r2 =>
          match scanIdRange v with
          | some ir =>
            if ir.1 < 0 ∨ 15 < ir.1 ∨ ir.2 < 0 ∨ 3 < ir.2 then
              Except.error (-1, "Bad parameter given to -c.")
            else
              process_arguments r2 { cfg with
                channels := cfg.channels ++ [⟨ir.1.toNat, rangeCodeToAd ir.2⟩] }
          | none => Except.error (-1, "Bad parameter given to -c.")
      else Except.error (-1, "Too many channels.")
    else if a = "-d" then
      match rest with
      | [] => Except.error (-1, "Bad duration given to -d.")
      | v :: r2 =>
        match scanOneInt v with
        | some d =>
          if d < 1 then Except.error (-1, "Bad duration given to -d.")
          else process_arguments r2 { cfg with duration := d }
        | none => Except.error (-1, "Bad duration given to -d.")
    else Except.error (-1, "Unknown commandline argument.")

deriving instance DecidableEq for Except

/-- C7: argument parsing rejects, with an error message and a nonzero exit
status (and hence before any device interaction, since `main` calls
`process_arguments` first): a `-c` channel id outside `[0,15]` such as
`16:0`; a `-c` range outside `[0,3]` such as `3:9`; a ninth `-c` flag
(reported as too many channels, both at the concrete example and for every
configuration already holding 8 channels); every `-c` value that fails the
`%d:%d` scan or violates the id/range bounds; every `-s` or `-d` value that
fails the `%d` scan or is below 1; a missing operand after `-o`, `-s`, `-d`
or `-c`; and every argument that is not one of the five recognized flags. -/
theorem argument_validation :
    process_arguments ["-c", "16:0"] defaultConfig
      = Except.error (-1, "Bad parameter given to -c.") ∧
    process_arguments ["-c", "3:9"] defaultConfig
      = Except.error (-1, "Bad parameter given to -c.") ∧
    process_arguments ["-c", "0:0", "-c", "1:1", "-c", "2:2", "-c", "3:3",
        "-c", "4:0", "-c", "5:1", "-c", "6:2", "-c", "7:3", "-c", "8:0"]
        defaultConfig
      = Except.error (-1, "Too many channels.") ∧
    (∀ (rest : List String) (cfg : argsConfig),
      MAX_CHANNELS ≤ cfg.channels.length →
        process_arguments ("-c" :: rest) cfg
          = Except.error (-1, "Too many channels.")) ∧
    (∀ (v : String) (rest : List String) (cfg : argsConfig),
      cfg.channels.length < MAX_CHANNELS →
      (scanIdRange v = none ∨ ∃ ir, scanIdRange v = some ir ∧
        (ir.1 < 0 ∨ 15 < ir.1 ∨ ir.2 < 0 ∨ 3 < ir.2)) →
        process_arguments ("-c" :: v :: rest) cfg
          = Except.error (-1, "Bad parameter given to -c.")) ∧
    (∀ (v : String) (rest : List String) (cfg : argsConfig),
      (scanOneInt v = none ∨ ∃ s, scanOneInt v = some s ∧ s < 1) →
        process_arguments ("-s" :: v :: rest) cfg
          = Except.error (-1, "Bad sample frequency given to -s.")) ∧
    (∀ (v : String) (rest : List String) (cfg : argsConfig),
      (scanOneInt v = none ∨ ∃ d, scanOneInt v = some d ∧ d < 1) →
        process_arguments ("-d" :: v :: rest) cfg
          = Except.error (-1, "Bad duration given to -d.")) ∧
    (∀ cfg : argsConfig,
      process_arguments ["-o"] cfg
        = Except.error (-1, "No file name given to -o.") ∧
      process_arguments ["-s"] cfg
        = Except.error (-1, "Bad sample frequency given to -s.") ∧
      process_arguments ["-d"] cfg
        = Except.error (-1, "Bad duration given to -d.") ∧
      (cfg.channels.length < MAX_CHANNELS →
        process_arguments ["-c"] cfg
          = Except.error (-1, "Bad parameter given to -c."))) ∧
    ∀ (a : String) (rest : List String) (cfg : argsConfig),
      a ≠ "-h" → a ≠ "-o" → a ≠ "-s" → a ≠ "-c" → a ≠ "-d" →
        process_arguments (a :: rest) cfg
          = Except.error (-1, "Unknown commandline argument.") := by
  refine ⟨by decide, by decide, by decide, ?_, ?_, ?_, ?_, ?_, ?_⟩
  · intro rest cfg h
    have h2 : ¬(cfg.channels.length < MAX_CHANNELS) := Nat.not_lt.mpr h
    rw [process_arguments.eq_def]
    simp [h2]
  · intro v rest cfg hlt hbad
    rw [process_arguments.eq_def]
    simp only [String.reduceEq, reduceIte, if_pos hlt]
    rcases hbad with hnone | ⟨ir, hir, hb⟩
    · rw [hnone]
    · rw [hir]
      exact if_pos hb
  · intro v rest cfg hbad
    rw [process_arguments.eq_def]
    simp only [String.reduceEq, reduceIte]
    rcases hbad with hnone | ⟨s, hs, hlt⟩
    · rw [hnone]
    · rw [hs]
      exact if_pos hlt
  · intro v rest cfg hbad
    rw [process_arguments.eq_def]
    simp only [String.reduceEq, reduceIte]
    rcases hbad with hnone | ⟨d, hd, hlt⟩
    · rw [hnone]
    · rw [hd]
      exact if_pos hlt
  · intro cfg
    refine ⟨rfl, rfl, rfl, fun h => ?_⟩
    rw [process_arguments.eq_def]
    simp [h]
  · intro a rest cfg h1 h2 h3 h4 h5
    rw [process_arguments.eq_def]
    simp [h1, h2, h3, h4, h5]

theorem argument_validation_witness :
    (MAX_CHANNELS ≤ (argsConfig.mk "data.csv" 200 (-1)
        [⟨0, ADRange.AD_B_1_V⟩, ⟨1, ADRange.AD_B_1_V⟩, ⟨2, ADRange.AD_B_1_V⟩,
          ⟨3, ADRange.AD_B_1_V⟩, ⟨4, ADRange.AD_B_1_V⟩, ⟨5, ADRange.AD_B_1_V⟩,
          ⟨6, ADRange.AD_B_1_V⟩, ⟨7, ADRange.AD_B_1_V⟩]).channels.length ∧
      process_arguments ("-c" :: ["0:0"]) (argsConfig.mk "data.csv" 200 (-1)
        [⟨0, ADRange.AD_B_1_V⟩, ⟨1, ADRange.AD_B_1_V⟩, ⟨2, ADRange.AD_B_1_V⟩,
          ⟨3, ADRange.AD_B_1_V⟩, ⟨4, ADRange.AD_B_1_V⟩, ⟨5, ADRange.AD_B_1_V⟩,
          ⟨6, ADRange.AD_B_1_V⟩, ⟨7, ADRange.AD_B_1_V⟩])
        = Except.error (-1, "Too many channels.")) ∧
    (defaultConfig.channels.length < MAX_CHANNELS ∧
      (scanIdRange "3:9" = none ∨ ∃ ir, scanIdRange "3:9" = some ir ∧
        (ir.1 < 0 ∨ 15 < ir.1 ∨ ir.2 < 0 ∨ 3 < ir.2)) ∧
      process_arguments ("-c" :: "3:9" :: []) defaultConfig
        = Except.error (-1, "Bad parameter given to -c.")) ∧
    ((scanOneInt "0" = none ∨ ∃ s, scanOneInt "0" = some s ∧ s < 1) ∧
      process_arguments ("-s" :: "0" :: []) defaultConfig
        = Except.error (-1, "Bad sample frequency given to -s.")) ∧
    ((scanOneInt "abc" = none ∨ ∃ d, scanOneInt "abc" = some d ∧ d < 1) ∧
      process_arguments ("-d" :: "abc" :: []) defaultConfig
        = Except.error (-1, "Bad duration given to -d.")) ∧
    (("-x" : String) ≠ "-h" ∧
      process_arguments ["-x"] defaultConfig
        = Except.error (-1, "Unknown commandline argument.")) :=
  ⟨⟨by decide,
    argument_validation.2.2.2.1 ["0:0"] (argsConfig.mk "data.csv" 200 (-1)
      [⟨0, ADRange.AD_B_1_V⟩, ⟨1, ADRange.AD_B_1_V⟩, ⟨2, ADRange.AD_B_1_V⟩,
        ⟨3, ADRange.AD_B_1_V⟩, ⟨4, ADRange.AD_B_1_V⟩, ⟨5, ADRange.AD_B_1_V⟩,
        ⟨6, ADRange.AD_B_1_V⟩, ⟨7, ADRange.AD_B_1_V⟩]) (by decide)⟩,
   ⟨by decide, Or.inr ⟨(3, 9), rfl, by decide⟩,
    argument_validation.2.2.2.2.1 "3:9" [] defaultConfig (by decide)
      (Or.inr ⟨(3, 9), rfl, by decide⟩)⟩,
   ⟨Or.inr ⟨0, rfl, by decide⟩,
    argument_validation.2.2.2.2.2.1 "0" [] defaultConfig
      (Or.inr ⟨0, rfl, by decide⟩)⟩,
   ⟨Or.inl rfl,
    argument_validation.2.2.2.2.2.2.1 "abc" [] defaultConfig (Or.inl rfl)⟩,
   ⟨by decide,
    argument_validation.2.2.2.2.2.2.2.2 "-x" [] defaultConfig (by decide)
      (by decide) (by decide) (by decide) (by decide)⟩⟩

/-! ### The acquisition loop, drain phase and exit procedure (lines 51-150, 392-397)

The vendor driver calls are modelled by an oracle: one `DriverStep` per poll
iteration supplies the results the driver would return, and a `DrainResult`
supplies the results of the final `UD_AI_AsyncClear` / transfer.  The loop
body becomes a function from the oracle to the list of observable effects
(`Sleep`, driver calls, writes, `exit`), so that the relationship between
error branches and the cleanup path is a statement about traces. -/

/-- Observable effects of `main` after configuration. -/
inductive Effect where
  | sleep : Effect
  | checkHalfReady : Effect
  | transfer : Effect
  | processSamples : Effect
  | asyncClear : Effect
  | releaseCard : Effect
  | closeFile : Effect
  | stderrMsg : Effect
  | stdoutMsg : Effect
  | oracleEnd : Effect
  | exitProc : Int → Effect
deriving DecidableEq, Repr

/-- Driver results for one iteration of the poll loop: the status-query
error code, the `HalfReady` flag, the transfer error code (consulted only
when `HalfReady`), and whether the exit check fires this iteration. -/
structure DriverStep where
  halfReadyErr : Int
  halfReady : Bool
  transferErr : Int
  stopNow : Bool
deriving DecidableEq, Repr

/-- Driver results for the drain phase after the loop. -/
structure DrainResult where
  clearErr : Int
  transferErr : Int
deriving DecidableEq, Repr

/-- `clean_exit` (lines 392-397): release the card, close the file if it is
open, and exit with the given code. -/
def clean_exit (fileOpen : Bool) (code : Int) : List Effect :=
  (Effect.releaseCard :: (if fileOpen then [Effect.closeFile] else [])) ++
    [Effect.exitProc code]

/-- The drain phase (lines 120-149): `AsyncClear`, final transfer, final
`process_samples`, `UD_Release_Card`, then `clean_exit(card, 0)`; each
driver error goes to `clean_exit(card, 1)` instead. -/
def drainPhase (fileOpen : Bool) (dr : DrainResult) : List Effect :=
  Effect.asyncClear ::
    (if dr.clearErr < 0 then Effect.stderrMsg :: clean_exit fileOpen 1
     else Effect.transfer ::
       (if dr.transferErr < 0 then Effect.stderrMsg :: clean_exit fileOpen 1
        else Effect.stdoutMsg :: Effect.processSamples :: Effect.releaseCard ::
          clean_exit fileOpen 0))

/-- The poll loop (lines 78-118): sleep, query `HalfReady` (on error clear
and `clean_exit(card, 1)`), on ready print and transfer (on error clear and
`clean_exit(card, 1)`) and process the half buffer, then evaluate the exit
check and either continue with the next oracle step or fall through to the
drain phase.  An exhausted oracle marks the (infinite) continuation. -/
def acquireLoop (fileOpen : Bool) : List DriverStep → DrainResult → List Effect
  | [], _ => [Effect.oracleEnd]
  | d :: rest, dr =>
    Effect.sleep :: Effect.checkHalfReady ::
      (if d.halfReadyErr < 0 then
        Effect.stderrMsg :: Effect.asyncClear :: clean_exit fileOpen 1
      else if d.halfReady then
        (if d.transferErr < 0 then
          Effect.stdoutMsg :: Effect.transfer :: Effect.stderrMsg ::
            Effect.asyncClear :: clean_exit fileOpen 1
        else Effect.stdoutMsg :: Effect.transfer :: Effect.processSamples ::
          (if d.stopNow then drainPhase fileOpen dr
           else acquireLoop fileOpen rest dr))
      else
        (if d.stopNow then drainPhase fileOpen dr
         else acquireLoop fileOpen rest dr))

/-- `main` from the `fopen` call on (lines 69-150): a failed `fopen` is
reported with `perror` and the program falls through into the poll loop with
a null file handle (`fileOpen = false`). -/
def mainAfterConfig (fopenOk : Bool) (oracle : List DriverStep)
    (dr : DrainResult) : List Effect :=
  (if fopenOk then [] else [Effect.stderrMsg]) ++ acquireLoop fopenOk oracle dr

/-- Every exit of the drain phase happens through the `clean_exit` suffix. -/
theorem drainPhase_exits (f : Bool) (dr : DrainResult) (c : Int)
    (h : Effect.exitProc c ∈ drainPhase f dr) :
    ∃ pre, drainPhase f dr = pre ++ clean_exit f c := by
  unfold drainPhase at h ⊢
  by_cases h1 : dr.clearErr < 0
  · have hc : c = 1 := by
      rw [if_pos h1] at h
      cases f <;> simpa [clean_exit] using h
    subst hc
    rw [if_pos h1]
    exact ⟨[Effect.asyncClear, Effect.stderrMsg], rfl⟩
  · by_cases h2 : dr.transferErr < 0
    · have hc : c = 1 := by
        rw [if_neg h1, if_pos h2] at h
        cases f <;> simpa [clean_exit] using h
      subst hc
      rw [if_neg h1, if_pos h2]
      exact ⟨[Effect.asyncClear, Effect.transfer, Effect.stderrMsg], rfl⟩
    · have hc : c = 0 := by
        rw [if_neg h1, if_neg h2] at h
        cases f <;> simpa [clean_exit] using h
      subst hc
      rw [if_neg h1, if_neg h2]
      exact ⟨[Effect.asyncClear, Effect.transfer, Effect.stdoutMsg,
        Effect.processSamples, Effect.releaseCard], rfl⟩

/-- Every exit of the poll loop (including via the drain phase) happens
through the `clean_exit` effect suffix. -/
theorem acquireLoop_exits (f : Bool) (oracle : List DriverStep) (dr : DrainResult) :
    ∀ c : Int, Effect.exitProc c ∈ acquireLoop f oracle dr →
      ∃ pre, acquireLoop f oracle dr = pre ++ clean_exit f c := by
  induction oracle with
  | nil => intro c h; simp [acquireLoop] at h
  | cons d rest ih =>
    intro c h
    unfold acquireLoop at h ⊢
    by_cases h1 : d.halfReadyErr < 0
    · have hc : c = 1 := by
        rw [if_pos h1] at h
        cases f <;> simpa [clean_exit] using h
      subst hc
      rw [if_pos h1]
      exact ⟨[Effect.sleep, Effect.checkHalfReady, Effect.stderrMsg,
        Effect.asyncClear], rfl⟩
    · rw [if_neg h1] at h ⊢
      by_cases h2 : d.halfReady
      · rw [if_pos h2] at h ⊢
        by_cases h3 : d.transferErr < 0
        · have hc : c = 1 := by
            rw [if_pos h3] at h
            cases f <;> simpa [clean_exit] using h
          subst hc
          rw [if_pos h3]
          exact ⟨[Effect.sleep, Effect.checkHalfReady, Effect.stdoutMsg,
            Effect.transfer, Effect.stderrMsg, Effect.asyncClear], rfl⟩
        · rw [if_neg h3] at h ⊢
          by_cases h4 : d.stopNow
          · rw [if_pos h4] at h ⊢
            have hmem : Effect.exitProc c ∈ drainPhase f dr := by simpa using h
            obtain ⟨pre, hp⟩ := drainPhase_exits f dr c hmem
            refine ⟨[Effect.sleep, Effect.checkHalfReady, Effect.stdoutMsg,
              Effect.transfer, Effect.processSamples] ++ pre, ?_⟩
            rw [hp]; simp
          · rw [if_neg h4] at h ⊢
            have hmem : Effect.exitProc c ∈ acquireLoop f rest dr := by simpa using h
            obtain ⟨pre, hp⟩ := ih c hmem
            refine ⟨[Effect.sleep, Effect.checkHalfReady, Effect.stdoutMsg,
              Effect.transfer, Effect.processSamples] ++ pre, ?_⟩
            rw [hp]; simp
      · rw [if_neg h2] at h ⊢
        by_cases h4 : d.stopNow
        · rw [if_pos h4] at h ⊢
          have hmem : Effect.exitProc c ∈ drainPhase f dr := by simpa using h
          obtain ⟨pre, hp⟩ := drainPhase_exits f dr c hmem
          refine ⟨[Effect.sleep, Effect.checkHalfReady] ++ pre, ?_⟩
          rw [hp]; simp
        · rw [if_neg h4] at h ⊢
          have hmem : Effect.exitProc c ∈ acquireLoop f rest dr := by simpa using h
          obtain ⟨pre, hp⟩ := ih c hmem
          refine ⟨[Effect.sleep, Effect.checkHalfReady] ++ pre, ?_⟩
          rw [hp]; simp

/-- C8: every process exit reachable from the ACQUIRING poll loop or the
DRAINING phase — in particular every fatal driver error, which exits with
code 1 — happens through the `clean_exit` effect suffix, which releases the
device handle, closes the output file exactly when it is open, and then
exits with the given code; no branch of those states terminates the process
otherwise. -/
theorem fatal_errors_route_through_clean_exit (fileOpen : Bool)
    (oracle : List DriverStep) (dr : DrainResult) (c : Int)
    (h : Effect.exitProc c ∈ acquireLoop fileOpen oracle dr) :
    (∃ pre, acquireLoop fileOpen oracle dr = pre ++ clean_exit fileOpen c) ∧
    Effect.releaseCard ∈ clean_exit fileOpen c ∧
    (Effect.closeFile ∈ clean_exit fileOpen c ↔ fileOpen = true) ∧
    (clean_exit fileOpen c).getLast? = some (Effect.exitProc c) := by
  refine ⟨acquireLoop_exits fileOpen oracle dr c h, ?_, ?_, ?_⟩
  · cases fileOpen <;> simp [clean_exit]
  · cases fileOpen <;> simp [clean_exit]
  · cases fileOpen <;> rfl

theorem fatal_errors_route_through_clean_exit_witness :
    Effect.exitProc 1 ∈ acquireLoop true [⟨-1, false, 0, false⟩] ⟨0, 0⟩ ∧
    ((∃ pre, acquireLoop true [⟨-1, false, 0, false⟩] ⟨0, 0⟩
        = pre ++ clean_exit true 1) ∧
      Effect.releaseCard ∈ clean_exit true 1 ∧
      (Effect.closeFile ∈ clean_exit true 1 ↔ true = true) ∧
      (clean_exit true 1).getLast? = some (Effect.exitProc 1)) :=
  ⟨by decide,
    fatal_errors_route_through_clean_exit true [⟨-1, false, 0, false⟩] ⟨0, 0⟩ 1
      (by decide)⟩

/-- C9: when the output file fails to open, the failure is reported once to
the error stream (`perror`) and the session nevertheless continues into the
poll loop with a null file handle (`fileOpen = false` is threaded through,
so `clean_exit` will skip `fclose`); the failure is not fatal at that
stage. -/
theorem fopen_failure_is_soft (d : DriverStep) (oracle : List DriverStep)
    (dr : DrainResult) :
    ∃ t, mainAfterConfig false (d :: oracle) dr
      = Effect.stderrMsg :: Effect.sleep :: Effect.checkHalfReady :: t := by
  unfold mainAfterConfig acquireLoop
  exact ⟨_, rfl⟩
